import Mathlib

/-!
Verification of the tiny-keccak `Keccak` facade (src/src/keccak.rs) against its
specification.  The facade delegates to the crate's sponge core
(`KeccakState<KeccakF>` and `bits_to_rate`), whose source is not included under
src/; those parts are modelled from the spec (sections 4.1 and 4.2), which
describes the 24-round Keccak-f[1600] permutation (theta, rho, pi, chi, iota,
little-endian byte/lane packing) and the absorb / pad / squeeze sponge protocol.
Bytes and 64-bit lanes are represented as `Nat` with explicit reduction
modulo 2^64 where overflow matters.
-/

/-- Rotate a 64-bit lane left by `r` bits (0 ≤ r < 64), result reduced mod 2^64. -/
def rotl64 (n r : Nat) : Nat :=
  ((n <<< r) ||| (n >>> (64 - r))) % (2 ^ 64)

/-- Bitwise complement within a 64-bit lane. -/
def not64 (n : Nat) : Nat :=
  n ^^^ (2 ^ 64 - 1)

/-- Modelled from the spec (4.1 Theta, `KeccakF` is not under src/): every lane
is XORed with the parities of its two neighbouring columns, one rotated left
by one bit.  Lanes are stored flat at index `x + 5*y`. -/
def theta (a : List Nat) : List Nat :=
  let c := (List.range 5).map (fun x =>
    a.getD x 0 ^^^ a.getD (x + 5) 0 ^^^ a.getD (x + 10) 0 ^^^
      a.getD (x + 15) 0 ^^^ a.getD (x + 20) 0)
  let d := (List.range 5).map (fun x =>
    c.getD ((x + 4) % 5) 0 ^^^ rotl64 (c.getD ((x + 1) % 5) 0) 1)
  (List.range 25).map (fun i => a.getD i 0 ^^^ d.getD (i % 5) 0)

/-- The standard 25-entry rotation-offset table (Rho), flat index `x + 5*y`,
generated as the standard specifies: walking `(x, y)` from `(1, 0)` by
`(x, y) ↦ (y, (2x + 3y) mod 5)` and assigning rotation `(t+1)(t+2)/2 mod 64`
at step `t`; lane `(0, 0)` keeps rotation 0. -/
def rotOffsets : List Nat :=
  ((List.range 24).foldl
    (fun st t =>
      let x := st.1.1
      let y := st.1.2
      ((y, (2 * x + 3 * y) % 5), st.2.set (x + 5 * y) ((t + 1) * (t + 2) / 2 % 64)))
    ((1, 0), List.replicate 25 0)).2

/-- Destination of the Pi lane relocation for source lane `i = x + 5*y`:
Pi maps source `(x, y)` to destination `(y, (2x + 3y) mod 5)`. -/
def piDest (i : Nat) : Nat :=
  i / 5 + 5 * ((2 * (i % 5) + 3 * (i / 5)) % 5)

/-- Inverse of the Pi lane relocation: output lane `j` comes from input lane
`piSource j`. -/
def piSource : List Nat :=
  (List.range 25).map (fun j => (((List.range 25).find? (fun i => piDest i == j)).getD 0))

/-- Modelled from the spec (4.1 Rho and Pi): each lane is rotated by its fixed
offset and relocated to its fixed destination. -/
def rhoPi (a : List Nat) : List Nat :=
  (List.range 25).map (fun j =>
    let src := piSource.getD j 0
    rotl64 (a.getD src 0) (rotOffsets.getD src 0))

/-- Modelled from the spec (4.1 Chi): each lane becomes itself XOR
((NOT next lane in row) AND lane two further in the row). -/
def chi (b : List Nat) : List Nat :=
  (List.range 25).map (fun i =>
    let x := i % 5
    let row := 5 * (i / 5)
    b.getD i 0 ^^^ (not64 (b.getD (row + (x + 1) % 5) 0) &&& b.getD (row + (x + 2) % 5) 0))

/-- The standard 24-entry round-constant table (Iota). -/
def roundConstants : List Nat :=
  [0x0000000000000001, 0x0000000000008082, 0x800000000000808a, 0x8000000080008000,
   0x000000000000808b, 0x0000000080000001, 0x8000000080008081, 0x8000000000008009,
   0x000000000000008a, 0x0000000000000088, 0x0000000080008009, 0x000000008000000a,
   0x000000008000808b, 0x800000000000008b, 0x8000000000008089, 0x8000000000008003,
   0x8000000000008002, 0x8000000000000080, 0x000000000000800a, 0x800000008000000a,
   0x8000000080008081, 0x8000000000008080, 0x0000000080000001, 0x8000000080008008]

/-- One round of the Keccak-f[1600] permutation: Theta, Rho, Pi, Chi, Iota. -/
def keccakRound (a : List Nat) (rc : Nat) : List Nat :=
  let b := chi (rhoPi (theta a))
  b.set 0 (b.getD 0 0 ^^^ rc)

/-- Modelled from the spec (4.1, `KeccakF` is not under src/): the 24-round
Keccak-f[1600] permutation on 25 flat 64-bit lanes. -/
def keccakf (a : List Nat) : List Nat :=
  roundConstants.foldl keccakRound a

/-- Pack 200 state bytes into 25 little-endian 64-bit lanes. -/
def bytesToLanes (bytes : List Nat) : List Nat :=
  (List.range 25).map (fun i =>
    (List.range 8).foldl (fun acc k => acc ^^^ (bytes.getD (8 * i + k) 0 <<< (8 * k))) 0)

/-- Unpack 25 little-endian 64-bit lanes into 200 state bytes. -/
def lanesToBytes (lanes : List Nat) : List Nat :=
  (List.range 200).map (fun j => (lanes.getD (j / 8) 0 >>> (8 * (j % 8))) % 256)

/-- Apply the Keccak-f[1600] permutation to the 200-byte state. -/
def permuteBytes (b : List Nat) : List Nat :=
  lanesToBytes (keccakf (bytesToLanes b))

/-- Modelled from the spec (3 Data model, 4.2 SpongeState; the crate's
`KeccakState` is not under src/): the 200-byte state buffer, the write cursor
into the rate window, and the immutable rate and delimiter configuration. -/
structure KeccakState where
  buffer : List Nat
  offset : Nat
  rate : Nat
  delim : Nat
deriving DecidableEq

/-- Modelled from the spec (3 Lifecycle): a sponge is created zero-initialized
with a given rate and delimiter. -/
def KeccakState.new (rate delim : Nat) : KeccakState :=
  { buffer := List.replicate 200 0, offset := 0, rate := rate, delim := delim }

/-- Modelled from the spec (4.2 absorb): XOR one input byte into the state at
the cursor, advance the cursor, and permute (resetting the cursor) when the
cursor reaches the rate. -/
def absorbByte (s : KeccakState) (b : Nat) : KeccakState :=
  let buf := s.buffer.set s.offset (s.buffer.getD s.offset 0 ^^^ b)
  let off := s.offset + 1
  if off == s.rate then
    { s with buffer := permuteBytes buf, offset := 0 }
  else
    { s with buffer := buf, offset := off }

/-- Modelled from the spec (4.2 absorb): absorb a byte sequence, one byte at a
time.  This is what `Hasher::update` for `Keccak` delegates to
(src/src/keccak.rs lines 83-85). -/
def KeccakState.update (s : KeccakState) (input : List Nat) : KeccakState :=
  input.foldl absorbByte s

/-- Modelled from the spec (4.2 finalize steps a-b): XOR the delimiter at the
cursor and XOR 0x80 into the last byte of the rate window (pad10*1). -/
def KeccakState.pad (s : KeccakState) : List Nat :=
  let b1 := s.buffer.set s.offset (s.buffer.getD s.offset 0 ^^^ s.delim)
  b1.set (s.rate - 1) (b1.getD (s.rate - 1) 0 ^^^ 0x80)

/-- Modelled from the spec (4.2 finalize step d): the squeeze phase copies
rate-sized chunks of the state, permuting between copies; `n` is the number of
chunks needed. -/
def squeezeBlocks : Nat → List Nat → Nat → List Nat
  | 0, _, _ => []
  | n + 1, buf, rate => buf.take rate ++ squeezeBlocks n (permuteBytes buf) rate

/-- Modelled from the spec (4.2 finalize; the crate's `KeccakState::finalize`
is not under src/): pad, permute, then squeeze `len` bytes (taking only the
needed chunks, and only the needed bytes of the last chunk).  This is what
`Hasher::finalize` for `Keccak` delegates to (src/src/keccak.rs lines 101-110),
consuming the state and writing exactly `len` bytes. -/
def KeccakState.finalize (s : KeccakState) (len : Nat) : List Nat :=
  (squeezeBlocks ((len + s.rate - 1) / s.rate) (permuteBytes s.pad) s.rate).take len

/-- Modelled from the spec (4.3, the crate's `bits_to_rate` is not under src/):
rate in bytes for a requested security level, Rate = 200 − 2 × (bits/8). -/
def bits_to_rate (bits : Nat) : Nat :=
  200 - 2 * (bits / 8)

/-- `Keccak::new` (src/src/keccak.rs lines 59-66, default build without the
"jolt" feature): a sponge with the computed rate and delimiter 0x01
(`Keccak::DELIM`, line 29). -/
def Keccak.new (bits : Nat) : KeccakState :=
  KeccakState.new (bits_to_rate bits) 0x01

/-- `Keccak::v224` (src/src/keccak.rs lines 34-36). -/
def Keccak.v224 : KeccakState := Keccak.new 224

/-- `Keccak::v256` (src/src/keccak.rs lines 41-43). -/
def Keccak.v256 : KeccakState := Keccak.new 256

/-- `Keccak::v384` (src/src/keccak.rs lines 48-50). -/
def Keccak.v384 : KeccakState := Keccak.new 384

/-- `Keccak::v512` (src/src/keccak.rs lines 55-57). -/
def Keccak.v512 : KeccakState := Keccak.new 512

/-- `impl Clone for Keccak` (src/src/keccak.rs lines 22-26): the body
unconditionally panics, embedded as an always-failing `Except`. -/
def Keccak.clone (_ : KeccakState) : Except String KeccakState :=
  Except.error "Keccak does not implement Clone"

/-- Modelled from the spec: under the "jolt" feature the `state` field of
`Keccak` (src/src/keccak.rs lines 18-19) is `jolt_inlines_keccak256::Keccak256`,
an external accelerated Keccak-256 backend from another crate; per the spec it
is a fixed Keccak-256 engine, modelled as the rate-136, delimiter-0x01 sponge.
`Keccak::new` under this feature (line 64) ignores the requested `bits`. -/
def KeccakJolt.new (_bits : Nat) : KeccakState :=
  KeccakState.new 136 0x01

/-- Digest of `input` under the "jolt" feature: the backend's `finalize`
returns a fixed 32-byte hash (src/src/keccak.rs lines 105-109). -/
def KeccakJolt.digest (bits : Nat) (input : List Nat) : List Nat :=
  ((KeccakJolt.new bits).update input).finalize 32

/-- Hex nibbles (values 0-15) of a byte sequence, two per byte. -/
def hexNibbles (bytes : List Nat) : List Nat :=
  bytes.flatMap (fun b => [b / 16 % 16, b % 16])

/-- The 63 hex digits the spec quotes as the Keccak-256 empty-input reference
digest: `c5d2460186f7233c927e7db2dcc703c0e500b653ca82273b7bfad8045d85a47`. -/
def specQuotedNibbles : List Nat :=
  [12, 5, 13, 2, 4, 6, 0, 1, 8, 6, 15, 7, 2, 3, 3, 12,
   9, 2, 7, 14, 7, 13, 11, 2, 13, 12, 12, 7, 0, 3, 12, 0,
   14, 5, 0, 0, 11, 6, 5, 3, 12, 10, 8, 2, 2, 7, 3, 11,
   7, 11, 15, 10, 13, 8, 0, 4, 5, 13, 8, 5, 10, 4, 7]

/-- The published 32-byte Keccak-256 digest of the empty input,
`c5d2460186f7233c927e7db2dcc703c0e500b653ca82273b7bfad8045d85a470`. -/
def keccak256EmptyDigest : List Nat :=
  [0xc5, 0xd2, 0x46, 0x01, 0x86, 0xf7, 0x23, 0x3c,
   0x92, 0x7e, 0x7d, 0xb2, 0xdc, 0xc7, 0x03, 0xc0,
   0xe5, 0x00, 0xb6, 0x53, 0xca, 0x82, 0x27, 0x3b,
   0x7b, 0xfa, 0xd8, 0x04, 0x5d, 0x85, 0xa4, 0x70]

/-! Helper lemmas about the sponge model. -/

lemma absorbByte_rate (s : KeccakState) (b : Nat) : (absorbByte s b).rate = s.rate := by
  simp only [absorbByte]
  split <;> rfl

lemma absorbByte_delim (s : KeccakState) (b : Nat) : (absorbByte s b).delim = s.delim := by
  simp only [absorbByte]
  split <;> rfl

lemma update_rate : ∀ (input : List Nat) (s : KeccakState),
    (s.update input).rate = s.rate := by
  intro input
  induction input with
  | nil => intro s; rfl
  | cons b bs ih =>
    intro s
    show ((absorbByte s b).update bs).rate = s.rate
    rw [ih (absorbByte s b), absorbByte_rate]

lemma update_delim : ∀ (input : List Nat) (s : KeccakState),
    (s.update input).delim = s.delim := by
  intro input
  induction input with
  | nil => intro s; rfl
  | cons b bs ih =>
    intro s
    show ((absorbByte s b).update bs).delim = s.delim
    rw [ih (absorbByte s b), absorbByte_delim]

lemma update_append (s : KeccakState) (A B : List Nat) :
    s.update (A ++ B) = (s.update A).update B := by
  simp [KeccakState.update, List.foldl_append]

lemma update_foldl_join : ∀ (chunks : List (List Nat)) (s : KeccakState),
    chunks.foldl KeccakState.update s = s.update chunks.flatten := by
  intro chunks
  induction chunks with
  | nil => intro s; rfl
  | cons c cs ih =>
    intro s
    rw [List.foldl_cons, ih (s.update c), List.flatten_cons, update_append]

lemma permuteBytes_length (b : List Nat) : (permuteBytes b).length = 200 := by
  simp [permuteBytes, lanesToBytes]

lemma squeezeBlocks_length : ∀ (n : Nat) (b : List Nat) (r : Nat), r ≤ 200 →
    (squeezeBlocks n (permuteBytes b) r).length = n * r := by
  intro n
  induction n with
  | zero => intro b r _; simp [squeezeBlocks]
  | succ n ih =>
    intro b r h
    have hlen := ih (permuteBytes b) r h
    simp only [squeezeBlocks, List.length_append, List.length_take, permuteBytes_length, hlen]
    have : min r 200 = r := min_eq_left h
    rw [this]
    ring

lemma le_ceil_mul (L r : Nat) (h : 0 < r) : L ≤ ((L + r - 1) / r) * r := by
  have hdm : r * ((L + r - 1) / r) + (L + r - 1) % r = L + r - 1 :=
    Nat.div_add_mod (L + r - 1) r
  have hm : (L + r - 1) % r < r := Nat.mod_lt _ h
  rw [Nat.mul_comm]
  generalize hP : r * ((L + r - 1) / r) = P at hdm
  omega

lemma squeezeBlocks_chain : ∀ (n m : Nat) (buf : List Nat) (r : Nat), n ≤ m →
    ∃ t, squeezeBlocks m buf r = squeezeBlocks n buf r ++ t := by
  intro n
  induction n with
  | zero =>
    intro m buf r _
    exact ⟨squeezeBlocks m buf r, by simp [squeezeBlocks]⟩
  | succ n ih =>
    intro m buf r h
    cases m with
    | zero => exact absurd h (by omega)
    | succ m =>
      obtain ⟨t, ht⟩ := ih m (permuteBytes buf) r (Nat.succ_le_succ_iff.mp h)
      exact ⟨t, by simp [squeezeBlocks, ht]⟩

lemma finalize_length (s : KeccakState) (L : Nat) (h1 : 0 < s.rate) (h2 : s.rate ≤ 200) :
    (s.finalize L).length = L := by
  unfold KeccakState.finalize
  rw [List.length_take, squeezeBlocks_length _ _ _ h2]
  exact min_eq_left (le_ceil_mul L s.rate h1)

/-! Claim theorems. -/

set_option maxRecDepth 100000 in
/-- C1 (counterexample): Keccak-256 of the empty input is a 32-byte digest
whose 64 hex digits do not equal the 63 hex digits the spec quotes; the quoted
string is exactly the first 63 digits, missing the final digit. -/
theorem keccak_v256_empty_not_spec_quote :
    (Keccak.v256.finalize 32).length = 32 ∧
    (hexNibbles (Keccak.v256.finalize 32)).length = 64 ∧
    specQuotedNibbles.length = 63 ∧
    hexNibbles (Keccak.v256.finalize 32) ≠ specQuotedNibbles ∧
    specQuotedNibbles = (hexNibbles (Keccak.v256.finalize 32)).take 63 := by
  decide

set_option maxRecDepth 100000 in
/-- C1 (amended): Keccak-256 of the empty input (Keccak::v256, no update,
finalize into 32 bytes) equals the published reference digest
c5d2460186f7233c927e7db2dcc703c0e500b653ca82273b7bfad8045d85a470. -/
theorem keccak_v256_empty_digest :
    Keccak.v256.finalize 32 = keccak256EmptyDigest := by
  decide

/-- C2: for every Keccak sponge in the absorbing phase, absorbing A then B and
finalizing gives the same digest as absorbing the concatenation A ++ B, and
more generally any chunking of the input gives the digest of the flattened
input. -/
theorem keccak_streaming_equivalence (s : KeccakState) (A B : List Nat) (L : Nat)
    (chunks : List (List Nat)) :
    ((s.update A).update B).finalize L = (s.update (A ++ B)).finalize L ∧
    (chunks.foldl KeccakState.update s).finalize L = (s.update chunks.flatten).finalize L := by
  constructor
  · rw [update_append]
  · rw [update_foldl_join]

/-- C3: cloning a Keccak hasher never silently succeeds: for every state, the
clone operation (whose Rust body unconditionally panics) yields an error and
never a second hasher. -/
theorem keccak_clone_always_fails :
    ∀ s : KeccakState,
      Keccak.clone s = Except.error "Keccak does not implement Clone" ∧
      ∀ s2 : KeccakState, Keccak.clone s ≠ Except.ok s2 :=
  fun _ => ⟨rfl, fun _ h => Except.noConfusion h⟩

/-- C5: every constructor (v224, v256, v384, v512) builds its hasher with the
domain-separation delimiter byte 0x01, and absorbing input never changes the
delimiter. -/
theorem keccak_delim_is_01 :
    Keccak.v224.delim = 0x01 ∧ Keccak.v256.delim = 0x01 ∧
    Keccak.v384.delim = 0x01 ∧ Keccak.v512.delim = 0x01 ∧
    ∀ (s : KeccakState) (input : List Nat), (s.update input).delim = s.delim :=
  ⟨rfl, rfl, rfl, rfl, fun s input => update_delim input s⟩

/-- C6: each constructor vN builds a sponge of rate 200 − 2×(N/8) bytes
(144, 136, 104, 72), each such rate is strictly between 0 and 200, and
absorbing input never changes the rate. -/
theorem keccak_rates_match_security_levels :
    ((Keccak.v224.rate = 200 - 2 * (224 / 8) ∧ Keccak.v224.rate = 144) ∧
     (Keccak.v256.rate = 200 - 2 * (256 / 8) ∧ Keccak.v256.rate = 136) ∧
     (Keccak.v384.rate = 200 - 2 * (384 / 8) ∧ Keccak.v384.rate = 104) ∧
     (Keccak.v512.rate = 200 - 2 * (512 / 8) ∧ Keccak.v512.rate = 72) ∧
     (0 < Keccak.v224.rate ∧ Keccak.v224.rate < 200) ∧
     (0 < Keccak.v256.rate ∧ Keccak.v256.rate < 200) ∧
     (0 < Keccak.v384.rate ∧ Keccak.v384.rate < 200) ∧
     (0 < Keccak.v512.rate ∧ Keccak.v512.rate < 200)) ∧
    ∀ (s : KeccakState) (input : List Nat), (s.update input).rate = s.rate :=
  ⟨by decide, fun s input => update_rate input s⟩

/-- C7: for every sponge whose rate is valid (as established by every
constructor), update completes on inputs of any length and finalize writes
exactly L bytes for every requested length L, including 0. -/
theorem keccak_finalize_exact_length (s : KeccakState) (input : List Nat) (L : Nat)
    (h1 : 0 < s.rate) (h2 : s.rate ≤ 200) :
    (s.finalize L).length = L ∧ ((s.update input).finalize L).length = L := by
  refine ⟨finalize_length s L h1 h2, finalize_length _ L ?_ ?_⟩
  · rw [update_rate]; exact h1
  · rw [update_rate]; exact h2

/-- C7 witness: instantiated at Keccak::v256, a 3-byte input and output
length 5. -/
theorem keccak_finalize_exact_length_witness :
    (Keccak.v256.finalize 5).length = 5 ∧
    ((Keccak.v256.update [1, 2, 3]).finalize 5).length = 5 :=
  keccak_finalize_exact_length Keccak.v256 [1, 2, 3] 5 (by decide) (by decide)

/-- C8: the digest is a deterministic function of the constructor parameter,
the absorbed bytes and the requested output length: two runs with equal
configuration, equal input and equal requested length give identical digests. -/
theorem keccak_deterministic (b1 b2 : Nat) (in1 in2 : List Nat) (L1 L2 : Nat)
    (hb : b1 = b2) (hin : in1 = in2) (hL : L1 = L2) :
    ((Keccak.new b1).update in1).finalize L1 = ((Keccak.new b2).update in2).finalize L2 := by
  subst hb; subst hin; subst hL; rfl

/-- C8 witness: instantiated with two identical runs of Keccak::v256 on the
two-byte input [1, 2] with output length 8. -/
theorem keccak_deterministic_witness :
    ((Keccak.new 256).update [1, 2]).finalize 8 = ((Keccak.new 256).update [1, 2]).finalize 8 :=
  keccak_deterministic 256 256 [1, 2] [1, 2] 8 8 rfl rfl rfl

/-- C9: for a fixed sponge with valid rate and fixed absorbed input, the
L1-byte digest is a byte-for-byte prefix of the L2-byte digest whenever
L1 < L2. -/
theorem keccak_shorter_digest_is_front_of_longer (s : KeccakState) (L1 L2 : Nat)
    (h1 : 0 < s.rate) (h2 : s.rate ≤ 200) (hL : L1 < L2) :
    ∃ t, s.finalize L2 = s.finalize L1 ++ t := by
  refine ⟨(s.finalize L2).drop L1, ?_⟩
  have htake : (s.finalize L2).take L1 = s.finalize L1 := by
    unfold KeccakState.finalize
    have hnm : (L1 + s.rate - 1) / s.rate ≤ (L2 + s.rate - 1) / s.rate :=
      Nat.div_le_div_right (by omega)
    obtain ⟨t, ht⟩ := squeezeBlocks_chain ((L1 + s.rate - 1) / s.rate)
      ((L2 + s.rate - 1) / s.rate) (permuteBytes s.pad) s.rate hnm
    rw [List.take_take, min_eq_left (le_of_lt hL), ht, List.take_append_eq_append_take,
      squeezeBlocks_length _ _ _ h2]
    have hz : L1 - ((L1 + s.rate - 1) / s.rate) * s.rate = 0 := by
      have := le_ceil_mul L1 s.rate h1
      omega
    rw [hz]
    simp
  calc s.finalize L2
      = (s.finalize L2).take L1 ++ (s.finalize L2).drop L1 := (List.take_append_drop _ _).symm
    _ = s.finalize L1 ++ (s.finalize L2).drop L1 := by rw [htake]

/-- C9 witness: instantiated at Keccak::v256 with output lengths 3 < 10. -/
theorem keccak_shorter_digest_is_front_of_longer_witness :
    ∃ t, Keccak.v256.finalize 10 = Keccak.v256.finalize 3 ++ t :=
  keccak_shorter_digest_is_front_of_longer Keccak.v256 3 10 (by decide) (by decide) (by decide)

/-- C10: under the "jolt" feature the constructor ignores the requested
security level, so v224, v256, v384 and v512 build identical backend states
and produce identical digests on every input. -/
theorem keccak_jolt_ignores_security_level :
    (∀ b1 b2 : Nat, KeccakJolt.new b1 = KeccakJolt.new b2) ∧
    ∀ input : List Nat,
      KeccakJolt.digest 224 input = KeccakJolt.digest 256 input ∧
      KeccakJolt.digest 256 input = KeccakJolt.digest 384 input ∧
      KeccakJolt.digest 384 input = KeccakJolt.digest 512 input :=
  ⟨fun _ _ => rfl, fun _ => ⟨rfl, rfl, rfl⟩⟩
